import Mathlib

/-!
# Transport envelope of the vendored raft package

Shallow embedding of `Godeps/_workspace/src/github.com/hashicorp/raft/transport.go`.

The file declares the types `RPCResponse` and `RPC`, the method `RPC.Respond` and the
interfaces `Transport`, `AppendPipeline` and `AppendFuture`.  `Respond` is the only
function with a body; it is a single Go send statement, so its meaning is the meaning of
a channel send.  Channels, streams and the envelope are kept in an explicit world state
and `Respond` is a state transformer over it.

The interfaces have no implementation in the file.  The append pipeline is therefore
modelled from the specification of the transport; each such definition says so in its
doc comment.
-/

namespace Raft

/-! ## Go values -/

/-- Dynamic type of a non-nil value stored in a Go `interface{}`.  The request and
response structs are named in `transport.go` and declared elsewhere in the package; any
other Go type is identified by its name. -/
inductive DynType where
  | RequestVoteRequest
  | AppendEntriesRequest
  | InstallSnapshotRequest
  | RequestVoteResponse
  | AppendEntriesResponse
  | InstallSnapshotResponse
  | other (name : String)
  deriving DecidableEq, Repr

/-- A Go `interface{}` value: either nil or a dynamic type together with a value.  The
values themselves are a parameter `P`, their declarations are not part of the file. -/
inductive Iface (P : Type) where
  | nil
  | val (t : DynType) (p : P)
  deriving DecidableEq, Repr

/-- A Go `error`: nil or an error carrying a message. -/
abbrev GoError := Option String

/-- RPCResponse captures both a response and a potential error (`transport.go` l.10-13). -/
structure RPCResponse (P : Type) where
  Response : Iface P
  Error : GoError
  deriving DecidableEq, Repr

/-- RPC has a command, and provides a response mechanism (`transport.go` l.16-20).
`Reader` is an `io.Reader` (nil or a reference to a stream), `RespChan` is a
`chan<- RPCResponse` (nil or a reference to a channel). -/
structure RPC (P : Type) where
  Command : Iface P
  Reader : Option Nat
  RespChan : Option Nat
  deriving DecidableEq, Repr

/-! ## Go channels -/

/-- State of one Go channel of `RPCResponse` values.
* `cap` is the buffer capacity (0 for an unbuffered channel),
* `buf` the buffered values, oldest first,
* `recvq` the number of receivers parked on the channel,
* `sendq` the values of the senders parked on the channel, oldest first,
* `closed` whether `close` was called,
* `received` the values already handed to receivers, oldest first. -/
structure Chan (P : Type) where
  cap : Nat
  buf : List (RPCResponse P)
  recvq : Nat
  sendq : List (RPCResponse P)
  closed : Bool
  received : List (RPCResponse P)
  deriving DecidableEq, Repr

/-- How a statement ends for the goroutine running it: it completes, it parks the
goroutine, or it raises a run-time panic. -/
inductive Outcome where
  | returned
  | blocked
  | panicked
  deriving DecidableEq, Repr

/-- Send of `v` on a non-nil channel (Go language specification, send statements):
a send on a closed channel panics; otherwise it proceeds if a receiver is ready or if
there is room in the buffer; otherwise the sender parks with its value. -/
def Chan.send {P : Type} (c : Chan P) (v : RPCResponse P) : Outcome × Chan P :=
  if c.closed then (Outcome.panicked, c)
  else if 0 < c.recvq then
    (Outcome.returned, { c with recvq := c.recvq - 1, received := c.received ++ [v] })
  else if c.buf.length < c.cap then
    (Outcome.returned, { c with buf := c.buf ++ [v] })
  else
    (Outcome.blocked, { c with sendq := c.sendq ++ [v] })

/-- Every value that was ever put on the channel and where it is now: handed to a
receiver, buffered, or still held by a parked sender. -/
def Chan.messages {P : Type} (c : Chan P) : List (RPCResponse P) :=
  c.received ++ c.buf ++ c.sendq

/-- The values written to the channel so far: those handed to a receiver, then those in
the buffer.  The value of a parked sender is not among them, its send has not
completed. -/
def Chan.written {P : Type} (c : Chan P) : List (RPCResponse P) :=
  c.received ++ c.buf

/-- The memory `Respond` runs against: the channels and the unread bytes of the
streams, both addressed by reference. -/
structure World (P : Type) where
  chans : Nat → Chan P
  readers : Nat → List Nat

/-- Send statement `ch <- v` where `ch` may be nil: a send on a nil channel blocks
forever and touches nothing. -/
def World.send {P : Type} (w : World P) (ch : Option Nat) (v : RPCResponse P) :
    Outcome × World P :=
  match ch with
  | none => (Outcome.blocked, w)
  | some c =>
    let res := (w.chans c).send v
    (res.1, { w with chans := Function.update w.chans c res.2 })

/-- What a call of a method with receiver `*RPC` leaves behind: how it ended, the
envelope the receiver points to, and the world. -/
structure CallResult (P : Type) where
  outcome : Outcome
  envelope : RPC P
  world : World P

/-- Respond is used to respond with a response, error or both (`transport.go` l.23-25):
`r.RespChan <- RPCResponse{resp, err}`. -/
def RPC.Respond {P : Type} (r : RPC P) (w : World P) (resp : Iface P) (err : GoError) :
    CallResult P :=
  let res := w.send r.RespChan { Response := resp, Error := err }
  { outcome := res.1, envelope := r, world := res.2 }

/-- Successive `Respond` calls on the same envelope, one per `(resp, err)` pair, each
run against the world the previous one left.  The outcomes are listed in call order. -/
def RPC.RespondEach {P : Type} (r : RPC P) (w : World P) :
    List (Iface P × GoError) → List Outcome × World P
  | [] => ([], w)
  | (resp, err) :: rest =>
    let res := r.Respond w resp err
    let tl := RPC.RespondEach res.envelope res.world rest
    (res.outcome :: tl.1, tl.2)

/-- Dynamic type of an interface value, `none` for nil. -/
def Iface.dynType {P : Type} : Iface P → Option DynType
  | Iface.nil => none
  | Iface.val t _ => some t

/-- Whether an interface value holds one of the three request structs. -/
def Iface.isRequest {P : Type} (c : Iface P) : Bool :=
  match c.dynType with
  | some DynType.RequestVoteRequest => true
  | some DynType.AppendEntriesRequest => true
  | some DynType.InstallSnapshotRequest => true
  | _ => false

/-! ## The append pipeline

`transport.go` declares `AppendPipeline` and `AppendFuture` as interfaces; the engine
behind them is not part of the file.  The definitions below follow the specification of
the pipeline: an internal FIFO of pending futures matched against network completions by
sequence number and released to the completion channel in submission order, an in-flight
window, and the lifecycle Open, Closing, Closed. -/

/-- Modelled from the spec: the error taxonomy of the transport. -/
inductive TransportError where
  | Unreachable
  | Timeout
  | PipelineClosed
  | Cancelled
  | Remote (msg : String)
  deriving DecidableEq, Repr

/-- Modelled from the spec: the settable-once result of a future, a response or an
error. -/
inductive Reply (Resp : Type) where
  | response (r : Resp)
  | error (e : TransportError)
  deriving DecidableEq, Repr

/-- Modelled from the spec: the Append Future missing from the file,
`{ submittedAt, request, result: settable-once }`, with the sequence number the pipeline
matches completions by.  `Start`, `Request` and `Response` of the interface are the
fields `Start`, `Request` and `result`. -/
structure AppendFuture (Req Resp : Type) where
  seq : Nat
  Start : Nat
  Request : Req
  result : Option (Reply Resp)
  deriving DecidableEq, Repr

/-- Whether the future has been resolved. -/
def AppendFuture.resolved {Req Resp : Type} (f : AppendFuture Req Resp) : Bool :=
  f.result.isSome

/-- Modelled from the spec: resolution of a future, "resolved exactly once ... immutable
thereafter": a resolved future keeps its result. -/
def AppendFuture.resolve {Req Resp : Type} (f : AppendFuture Req Resp) (r : Reply Resp) :
    AppendFuture Req Resp :=
  match f.result with
  | none => { f with result := some r }
  | some _ => f

/-- The future as it was handed out by the pipeline, before any resolution. -/
def AppendFuture.unresolved {Req Resp : Type} (f : AppendFuture Req Resp) :
    AppendFuture Req Resp :=
  { f with result := none }

/-- Modelled from the spec: lifecycle state of a pipeline. -/
inductive Lifecycle where
  | Open
  | Closing
  | Closed
  deriving DecidableEq, Repr

/-- Modelled from the spec: the Append Pipeline missing from the file: the in-flight
window, the lifecycle state, the next sequence number, the internal FIFO of pending
futures in submission order, and the futures delivered on the completion channel
(`Consumer`), oldest first. -/
structure AppendPipeline (Req Resp : Type) where
  window : Nat
  state : Lifecycle
  nextSeq : Nat
  pending : List (AppendFuture Req Resp)
  Consumer : List (AppendFuture Req Resp)
  deriving DecidableEq, Repr

/-- Modelled from the spec: a pipeline as `AppendEntriesPipeline` returns it: open, with
nothing submitted. -/
def AppendPipeline.new (Req Resp : Type) (window : Nat) : AppendPipeline Req Resp :=
  { window := window, state := Lifecycle.Open, nextSeq := 0, pending := [], Consumer := [] }

/-- Modelled from the spec: number of submitted futures that are not yet resolved; the
admission gate is acquired on submission and released on resolution. -/
def AppendPipeline.inflight {Req Resp : Type} (p : AppendPipeline Req Resp) : Nat :=
  (p.pending.filter (fun (f : AppendFuture Req Resp) => !f.resolved)).length

/-- Modelled from the spec: release to the completion channel, "only in submission
order": the resolved futures at the head of the FIFO are delivered, a future behind an
unresolved one is held. -/
def AppendPipeline.drain {Req Resp : Type} (p : AppendPipeline Req Resp) : AppendPipeline Req Resp :=
  { p with
    Consumer := p.Consumer ++ p.pending.takeWhile AppendFuture.resolved,
    pending := p.pending.dropWhile AppendFuture.resolved }

/-- Modelled from the spec: `Closing --all futures drained--> Closed`. -/
def AppendPipeline.settle {Req Resp : Type} (p : AppendPipeline Req Resp) : AppendPipeline Req Resp :=
  if p.state = Lifecycle.Closing ∧ p.pending.isEmpty then
    { p with state := Lifecycle.Closed }
  else p

/-- Result of a submission: a future, an error, or the caller is held back because the
in-flight window is full. -/
inductive SubmitResult (Req Resp : Type) where
  | ok (f : AppendFuture Req Resp)
  | failed (e : TransportError)
  | blocked
  deriving DecidableEq, Repr

/-- Modelled from the spec: `AppendPipeline.AppendEntries` (Submit) at time `now`: fails
with `PipelineClosed` when the pipeline is not open, blocks when the window is full,
otherwise enqueues a fresh unresolved future stamped with `now`. -/
def AppendPipeline.AppendEntries {Req Resp : Type} (p : AppendPipeline Req Resp) (now : Nat) (req : Req) :
    SubmitResult Req Resp × AppendPipeline Req Resp :=
  if p.state ≠ Lifecycle.Open then (SubmitResult.failed TransportError.PipelineClosed, p)
  else if p.window ≤ p.inflight then (SubmitResult.blocked, p)
  else
    let f : AppendFuture Req Resp :=
      { seq := p.nextSeq, Start := now, Request := req, result := none }
    (SubmitResult.ok f, { p with nextSeq := p.nextSeq + 1, pending := p.pending ++ [f] })

/-- Modelled from the spec: the network layer completes the request with sequence number
`seq`, with a response or a transport error; the matching pending future is resolved and
the FIFO is drained. -/
def AppendPipeline.complete {Req Resp : Type} (p : AppendPipeline Req Resp) (seq : Nat) (r : Reply Resp) :
    AppendPipeline Req Resp :=
  ({ p with
      pending := p.pending.map
        (fun (f : AppendFuture Req Resp) => if f.seq = seq then f.resolve r else f) }).drain

/-- Modelled from the spec: `AppendPipeline.Close`: every outstanding future is resolved
with `Cancelled`, the pipeline ends Closed, a repeated call has no effect; the returned
error is always nil. -/
def AppendPipeline.Close {Req Resp : Type} (p : AppendPipeline Req Resp) :
    Option TransportError × AppendPipeline Req Resp :=
  match p.state with
  | Lifecycle.Closed => (none, p)
  | _ =>
    (none,
      ({ p with
          state := Lifecycle.Closing,
          pending := p.pending.map
            (fun (f : AppendFuture Req Resp) =>
              f.resolve (Reply.error TransportError.Cancelled)) }).drain.settle)

/-- What happens to a pipeline: a submission, a network completion, a close. -/
inductive Event (Req Resp : Type) where
  | submit (now : Nat) (req : Req)
  | complete (seq : Nat) (r : Reply Resp)
  | close
  deriving DecidableEq, Repr

/-- One event applied to a pipeline. -/
def AppendPipeline.step {Req Resp : Type} (p : AppendPipeline Req Resp) :
    Event Req Resp → AppendPipeline Req Resp
  | Event.submit now req => (p.AppendEntries now req).2
  | Event.complete seq r => p.complete seq r
  | Event.close => p.Close.2

/-- The pipeline after a sequence of events. -/
def AppendPipeline.run {Req Resp : Type} (p : AppendPipeline Req Resp) (es : List (Event Req Resp)) :
    AppendPipeline Req Resp :=
  es.foldl AppendPipeline.step p

/-- The futures `AppendEntries` hands out while the events run, in submission order. -/
def AppendPipeline.issued {Req Resp : Type} (p : AppendPipeline Req Resp) :
    List (Event Req Resp) → List (AppendFuture Req Resp)
  | [] => []
  | Event.submit now req :: es =>
    match (p.AppendEntries now req).1 with
    | SubmitResult.ok f => f :: AppendPipeline.issued (p.AppendEntries now req).2 es
    | _ => AppendPipeline.issued (p.AppendEntries now req).2 es
  | Event.complete seq r :: es => AppendPipeline.issued (p.complete seq r) es
  | Event.close :: es => AppendPipeline.issued p.Close.2 es

/-- All futures the pipeline knows, in submission order: the delivered ones, then the
pending ones. -/
def AppendPipeline.all {Req Resp : Type} (p : AppendPipeline Req Resp) : List (AppendFuture Req Resp) :=
  p.Consumer ++ p.pending

/-- What holds of a pipeline after any run: the sequence numbers of its futures count up
in submission order, the delivered futures are resolved, a closed pipeline holds no
pending future, and the oldest pending future is unresolved. -/
structure AppendPipeline.Inv {Req Resp : Type} (p : AppendPipeline Req Resp) : Prop where
  seqs : p.all.map AppendFuture.seq = List.range p.nextSeq
  delivered : ∀ f ∈ p.Consumer, f.resolved = true
  closed : p.state = Lifecycle.Closed → p.pending = []
  head : ∀ f, p.pending.head? = some f → f.resolved = false

/-- The future `Close` leaves for `f`: cancelled, unless `f` was resolved before. -/
def AppendFuture.cancel {Req Resp : Type} (f : AppendFuture Req Resp) :
    AppendFuture Req Resp :=
  f.resolve (Reply.error TransportError.Cancelled)

/-! ## Sample values -/

/-- A buffered reply channel with room for `cap` replies and nobody waiting. -/
def emptyChan (P : Type) (cap : Nat) : Chan P :=
  { cap := cap, buf := [], recvq := 0, sendq := [], closed := false, received := [] }

/-- A world whose channels all are empty with capacity `cap`, with empty streams. -/
def emptyWorld (P : Type) (cap : Nat) : World P :=
  { chans := fun _ => emptyChan P cap, readers := fun _ => [] }

/-- The envelope used in the examples: no command, no stream, reply channel 0. -/
def sampleEnvelope (P : Type) : RPC P :=
  { Command := Iface.nil, Reader := none, RespChan := some 0 }

/-- The zero value `RPC{}`: no command, no stream, nil reply channel. -/
def zeroEnvelope (P : Type) : RPC P :=
  { Command := Iface.nil, Reader := none, RespChan := none }

/-- An envelope with a vote request and a stream attached, reply channel 0. -/
def voteEnvelope : RPC Nat :=
  { Command := Iface.val DynType.RequestVoteRequest 1, Reader := some 5,
    RespChan := some 0 }

/-- An envelope whose command is a Go string, not a request struct. -/
def strayEnvelope : RPC Nat :=
  { Command := Iface.val (DynType.other "string") 0, Reader := none, RespChan := some 0 }

/-- Two replies: a response without error, then an error without response. -/
def sampleReplies : List (Iface Nat × GoError) :=
  [(Iface.val DynType.AppendEntriesResponse 1, none), (Iface.nil, some "late")]

/-- Three submissions to a pipeline of window 3, completed by the network in the order
third, first, second. -/
def sampleEvents : List (Event Nat Nat) :=
  [Event.submit 10 100, Event.submit 11 101, Event.submit 12 102,
   Event.complete 2 (Reply.response 202), Event.complete 0 (Reply.response 200),
   Event.complete 1 (Reply.error TransportError.Timeout)]

/-- A world whose channels were all closed by the caller. -/
def closedWorld (P : Type) : World P :=
  { chans := fun _ =>
      { cap := 1, buf := [], recvq := 0, sendq := [], closed := true, received := [] },
    readers := fun _ => [] }

/-! ## Channel sends -/

theorem Chan.send_closed {P : Type} (c : Chan P) (v : RPCResponse P) :
    (c.send v).2.closed = c.closed := by
  unfold Chan.send
  split_ifs <;> rfl

theorem Chan.send_cap {P : Type} (c : Chan P) (v : RPCResponse P) :
    (c.send v).2.cap = c.cap := by
  unfold Chan.send
  split_ifs <;> rfl

theorem Chan.send_of_closed {P : Type} (c : Chan P) (v : RPCResponse P)
    (h : c.closed = true) : c.send v = (Outcome.panicked, c) := by
  simp [Chan.send, h]

theorem Chan.send_of_receiver {P : Type} (c : Chan P) (v : RPCResponse P)
    (h : c.closed = false) (hr : 0 < c.recvq) :
    c.send v =
      (Outcome.returned, { c with recvq := c.recvq - 1, received := c.received ++ [v] }) := by
  simp [Chan.send, h, hr]

theorem Chan.send_of_room {P : Type} (c : Chan P) (v : RPCResponse P)
    (h : c.closed = false) (hr : c.recvq = 0) (hb : c.buf.length < c.cap) :
    c.send v = (Outcome.returned, { c with buf := c.buf ++ [v] }) := by
  simp [Chan.send, h, hr, hb]

theorem Chan.send_of_full {P : Type} (c : Chan P) (v : RPCResponse P)
    (h : c.closed = false) (hr : c.recvq = 0) (hb : c.cap ≤ c.buf.length) :
    c.send v = (Outcome.blocked, { c with sendq := c.sendq ++ [v] }) := by
  simp [Chan.send, h, hr, Nat.not_lt.mpr hb]

theorem Chan.send_messages {P : Type} (c : Chan P) (v : RPCResponse P)
    (h : c.closed = false) :
    ∃ pre post, c.messages = pre ++ post ∧ (c.send v).2.messages = pre ++ v :: post := by
  by_cases hr : 0 < c.recvq
  · refine ⟨c.received, c.buf ++ c.sendq, ?_, ?_⟩
    · simp [Chan.messages]
    · rw [Chan.send_of_receiver c v h hr]
      simp [Chan.messages]
  · have hr0 : c.recvq = 0 := Nat.eq_zero_of_not_pos hr
    by_cases hb : c.buf.length < c.cap
    · refine ⟨c.received ++ c.buf, c.sendq, ?_, ?_⟩
      · simp [Chan.messages]
      · rw [Chan.send_of_room c v h hr0 hb]
        simp [Chan.messages]
    · refine ⟨c.received ++ c.buf ++ c.sendq, [], ?_, ?_⟩
      · simp [Chan.messages]
      · rw [Chan.send_of_full c v h hr0 (Nat.le_of_not_lt hb)]
        simp [Chan.messages]

theorem Chan.send_not_panicked {P : Type} (c : Chan P) (v : RPCResponse P)
    (h : c.closed = false) : (c.send v).1 ≠ Outcome.panicked := by
  by_cases hr : 0 < c.recvq
  · rw [Chan.send_of_receiver c v h hr]
    simp
  · have hr0 : c.recvq = 0 := Nat.eq_zero_of_not_pos hr
    by_cases hb : c.buf.length < c.cap
    · rw [Chan.send_of_room c v h hr0 hb]
      simp
    · rw [Chan.send_of_full c v h hr0 (Nat.le_of_not_lt hb)]
      simp

theorem World.send_some {P : Type} (w : World P) (c : Nat) (v : RPCResponse P) :
    w.send (some c) v =
      (((w.chans c).send v).1,
        { w with chans := Function.update w.chans c ((w.chans c).send v).2 }) := rfl

theorem World.send_none {P : Type} (w : World P) (v : RPCResponse P) :
    w.send none v = (Outcome.blocked, w) := rfl

theorem World.send_readers {P : Type} (w : World P) (ch : Option Nat) (v : RPCResponse P) :
    (w.send ch v).2.readers = w.readers := by
  cases ch <;> rfl

theorem World.send_chans_same {P : Type} (w : World P) (c : Nat) (v : RPCResponse P) :
    (w.send (some c) v).2.chans c = ((w.chans c).send v).2 := by
  simp [World.send_some]

theorem World.send_chans_other {P : Type} (w : World P) (ch : Option Nat)
    (v : RPCResponse P) (d : Nat) (h : ch ≠ some d) :
    (w.send ch v).2.chans d = w.chans d := by
  cases ch with
  | none => rfl
  | some c =>
    have hne : d ≠ c := fun e => h (by rw [e])
    simp [World.send_some, Function.update_noteq hne]

theorem Respond_outcome {P : Type} (r : RPC P) (w : World P) (resp : Iface P)
    (err : GoError) :
    (r.Respond w resp err).outcome =
      (w.send r.RespChan { Response := resp, Error := err }).1 := rfl

theorem Respond_world {P : Type} (r : RPC P) (w : World P) (resp : Iface P)
    (err : GoError) :
    (r.Respond w resp err).world =
      (w.send r.RespChan { Response := resp, Error := err }).2 := rfl

theorem Respond_envelope {P : Type} (r : RPC P) (w : World P) (resp : Iface P)
    (err : GoError) : (r.Respond w resp err).envelope = r := rfl

theorem RespondEach_cons {P : Type} (r : RPC P) (w : World P) (resp : Iface P)
    (err : GoError) (rest : List (Iface P × GoError)) :
    r.RespondEach w ((resp, err) :: rest) =
      ((r.Respond w resp err).outcome :: (r.RespondEach (r.Respond w resp err).world rest).1,
        (r.RespondEach (r.Respond w resp err).world rest).2) := rfl

theorem Respond_chan_of_some {P : Type} (r : RPC P) (w : World P) (resp : Iface P)
    (err : GoError) (c : Nat) (hc : r.RespChan = some c) :
    (r.Respond w resp err).world.chans c =
      ((w.chans c).send { Response := resp, Error := err }).2 := by
  rw [Respond_world, hc, World.send_chans_same]

theorem Respond_outcome_of_some {P : Type} (r : RPC P) (w : World P) (resp : Iface P)
    (err : GoError) (c : Nat) (hc : r.RespChan = some c) :
    (r.Respond w resp err).outcome =
      ((w.chans c).send { Response := resp, Error := err }).1 := by
  rw [Respond_outcome, hc, World.send_some]

/-! ## The reply written by `Respond` -/

/-- Counterexample to C1: on the zero envelope (nil reply channel) `Respond` blocks and
no channel changes; on a closed reply channel it panics and writes nothing; on an
unbuffered reply channel without receiver it blocks and nothing is handed over or
buffered. -/
theorem Respond_without_write :
    (((zeroEnvelope Nat).Respond (emptyWorld Nat 1)
          (Iface.val DynType.AppendEntriesResponse 7) none).outcome = Outcome.blocked ∧
      (∀ d, (((zeroEnvelope Nat).Respond (emptyWorld Nat 1)
          (Iface.val DynType.AppendEntriesResponse 7) none).world.chans d).messages = [])) ∧
    (((sampleEnvelope Nat).Respond (closedWorld Nat)
          (Iface.val DynType.AppendEntriesResponse 7) none).outcome = Outcome.panicked ∧
      (((sampleEnvelope Nat).Respond (closedWorld Nat)
          (Iface.val DynType.AppendEntriesResponse 7) none).world.chans 0).messages = []) ∧
    (((sampleEnvelope Nat).Respond (emptyWorld Nat 0)
          (Iface.val DynType.AppendEntriesResponse 7) none).outcome = Outcome.blocked ∧
      (((sampleEnvelope Nat).Respond (emptyWorld Nat 0)
          (Iface.val DynType.AppendEntriesResponse 7) none).world.chans 0).written = []) := by
  refine ⟨⟨rfl, fun _ => rfl⟩, ⟨rfl, rfl⟩, ⟨rfl, rfl⟩⟩

/-- C1 as amended: for an envelope whose reply channel is not nil and not closed, and
every `resp` and `err` (nil or not): when a receiver is waiting or the buffer has a free
slot, one call of `Respond` returns and has written exactly one message to `RespChan`,
`RPCResponse{Response: resp, Error: err}`, handed to the receiver if one waits and
appended to the buffer otherwise, the values written before staying as they were and in
order; when no receiver waits and the buffer has no free slot the call blocks, nothing is
written and the sender holds that message.  In every case no other channel and no stream
is touched. -/
theorem Respond_writes_exactly_one {P : Type} (r : RPC P) (w : World P) (resp : Iface P)
    (err : GoError) (c : Nat) (hc : r.RespChan = some c)
    (hopen : (w.chans c).closed = false) :
    ((0 < (w.chans c).recvq ∨ (w.chans c).buf.length < (w.chans c).cap) →
      (r.Respond w resp err).outcome = Outcome.returned ∧
      (∃ pre post, (w.chans c).written = pre ++ post ∧
        ((r.Respond w resp err).world.chans c).written =
          pre ++ ({ Response := resp, Error := err } : RPCResponse P) :: post) ∧
      ((r.Respond w resp err).world.chans c).written.length =
        (w.chans c).written.length + 1 ∧
      ((r.Respond w resp err).world.chans c).sendq = (w.chans c).sendq) ∧
    (0 < (w.chans c).recvq →
      (r.Respond w resp err).world.chans c =
        { w.chans c with
          recvq := (w.chans c).recvq - 1,
          received := (w.chans c).received ++ [{ Response := resp, Error := err }] }) ∧
    ((w.chans c).recvq = 0 → (w.chans c).buf.length < (w.chans c).cap →
      (r.Respond w resp err).world.chans c =
        { w.chans c with buf := (w.chans c).buf ++ [{ Response := resp, Error := err }] }) ∧
    ((w.chans c).recvq = 0 → (w.chans c).cap ≤ (w.chans c).buf.length →
      (r.Respond w resp err).outcome = Outcome.blocked ∧
      ((r.Respond w resp err).world.chans c).written = (w.chans c).written ∧
      ((r.Respond w resp err).world.chans c).sendq =
        (w.chans c).sendq ++ [{ Response := resp, Error := err }]) ∧
    (∀ d, d ≠ c → (r.Respond w resp err).world.chans d = w.chans d) ∧
    (r.Respond w resp err).world.readers = w.readers := by
  rw [Respond_outcome_of_some r w resp err c hc, Respond_chan_of_some r w resp err c hc]
  refine ⟨?_, ?_, ?_, ?_, ?_, ?_⟩
  · intro hgo
    by_cases hr : 0 < (w.chans c).recvq
    · rw [Chan.send_of_receiver _ _ hopen hr]
      refine ⟨rfl, ⟨(w.chans c).received, (w.chans c).buf, rfl, ?_⟩, ?_, rfl⟩
      · simp [Chan.written]
      · simp [Chan.written]
        omega
    · have hr0 : (w.chans c).recvq = 0 := Nat.eq_zero_of_not_pos hr
      have hb : (w.chans c).buf.length < (w.chans c).cap := hgo.resolve_left hr
      rw [Chan.send_of_room _ _ hopen hr0 hb]
      refine ⟨rfl, ⟨(w.chans c).received ++ (w.chans c).buf, [], ?_, ?_⟩, ?_, rfl⟩
      · simp [Chan.written]
      · simp [Chan.written]
      · simp [Chan.written]
        omega
  · intro hr
    rw [Chan.send_of_receiver _ _ hopen hr]
  · intro hr hb
    rw [Chan.send_of_room _ _ hopen hr hb]
  · intro hr hb
    rw [Chan.send_of_full _ _ hopen hr hb]
    exact ⟨rfl, rfl, rfl⟩
  · intro d hd
    rw [Respond_world]
    apply World.send_chans_other
    rw [hc]
    intro e
    exact hd (Option.some.inj e).symm
  · rw [Respond_world, World.send_readers]

/-- Witness of C1 as amended: a reply with a response and an error on the empty one-slot
channel 0 returns and is the one value in the buffer. -/
theorem Respond_writes_exactly_one_witness :
    (sampleEnvelope Nat).RespChan = some 0 ∧
    ((emptyWorld Nat 1).chans 0).closed = false ∧
    ((sampleEnvelope Nat).Respond (emptyWorld Nat 1)
        (Iface.val DynType.AppendEntriesResponse 7) (some "boom")).outcome =
      Outcome.returned ∧
    ((sampleEnvelope Nat).Respond (emptyWorld Nat 1)
        (Iface.val DynType.AppendEntriesResponse 7) (some "boom")).world.chans 0 =
      { emptyChan Nat 1 with
        buf := [{ Response := Iface.val DynType.AppendEntriesResponse 7,
                  Error := some "boom" }] } :=
  ⟨rfl, rfl,
    ((Respond_writes_exactly_one (sampleEnvelope Nat) (emptyWorld Nat 1)
      (Iface.val DynType.AppendEntriesResponse 7) (some "boom") 0 rfl rfl).1
        (Or.inr (by decide))).1,
    (Respond_writes_exactly_one (sampleEnvelope Nat) (emptyWorld Nat 1)
      (Iface.val DynType.AppendEntriesResponse 7) (some "boom") 0 rfl rfl).2.2.1 rfl
        (by decide)⟩

/-- Counterexample to C2: two `Respond` calls on one envelope whose reply channel has two
free slots both return and leave two replies on `RespChan`. -/
theorem Respond_twice_writes_two :
    ((sampleEnvelope Nat).RespondEach (emptyWorld Nat 2)
        [(Iface.val DynType.AppendEntriesResponse 1, none), (Iface.nil, some "late")]).1 =
      [Outcome.returned, Outcome.returned] ∧
    (((sampleEnvelope Nat).RespondEach (emptyWorld Nat 2)
        [(Iface.val DynType.AppendEntriesResponse 1, none), (Iface.nil, some "late")]).2.chans
      0).buf =
      [{ Response := Iface.val DynType.AppendEntriesResponse 1, Error := none },
       { Response := Iface.nil, Error := some "late" }] := by
  constructor <;> rfl

/-- C2 as amended: every `Respond` call on an envelope whose reply channel is open adds
one reply: after `k` calls the channel holds its old values and the `k` replies passed,
each once (handed to a receiver, buffered or held by a parked sender), and no call
panics.  Nothing makes the reply write-once. -/
theorem RespondEach_writes_each {P : Type} (r : RPC P) (w : World P)
    (replies : List (Iface P × GoError)) (c : Nat) (hc : r.RespChan = some c)
    (hopen : (w.chans c).closed = false) :
    List.Perm ((r.RespondEach w replies).2.chans c).messages
      ((w.chans c).messages ++
        replies.map (fun p => ({ Response := p.1, Error := p.2 } : RPCResponse P))) ∧
    ((r.RespondEach w replies).2.chans c).messages.length =
      (w.chans c).messages.length + replies.length ∧
    (r.RespondEach w replies).1.length = replies.length ∧
    (∀ o ∈ (r.RespondEach w replies).1, o ≠ Outcome.panicked) := by
  induction replies generalizing w with
  | nil => simp [RPC.RespondEach]
  | cons hd tl ih =>
    obtain ⟨resp, err⟩ := hd
    rw [RespondEach_cons]
    have hch := Respond_chan_of_some r w resp err c hc
    have hopen2 : ((r.Respond w resp err).world.chans c).closed = false := by
      rw [hch, Chan.send_closed]
      exact hopen
    obtain ⟨ih1, ih2, ih3, ih4⟩ := ih (r.Respond w resp err).world hopen2
    obtain ⟨pre, post, h1, h2⟩ :=
      Chan.send_messages (w.chans c) { Response := resp, Error := err } hopen
    rw [← hch] at h2
    have hperm : List.Perm ((r.Respond w resp err).world.chans c).messages
        ((w.chans c).messages ++ [({ Response := resp, Error := err } : RPCResponse P)]) := by
      rw [h1, h2]
      exact List.perm_middle.trans (List.perm_append_singleton _ (pre ++ post)).symm
    refine ⟨?_, ?_, ?_, ?_⟩
    · refine ih1.trans ?_
      have := hperm.append_right
        (tl.map (fun p => ({ Response := p.1, Error := p.2 } : RPCResponse P)))
      simpa using this
    · simp only [ih2, hperm.length_eq, List.length_append, List.length_cons, List.length_nil]
      omega
    · simp [ih3]
    · intro o ho
      rcases List.mem_cons.mp ho with rfl | ho
      · rw [Respond_outcome_of_some r w resp err c hc]
        exact Chan.send_not_panicked _ _ hopen
      · exact ih4 o ho

/-- Witness of C2 as amended: two replies on the empty one-slot channel 0. -/
theorem RespondEach_writes_each_witness :
    (sampleEnvelope Nat).RespChan = some 0 ∧
    ((emptyWorld Nat 1).chans 0).closed = false ∧
    (List.Perm
      (((sampleEnvelope Nat).RespondEach (emptyWorld Nat 1) sampleReplies).2.chans 0).messages
      (((emptyWorld Nat 1).chans 0).messages ++
        sampleReplies.map (fun p => ({ Response := p.1, Error := p.2 } : RPCResponse Nat))) ∧
    (((sampleEnvelope Nat).RespondEach (emptyWorld Nat 1) sampleReplies).2.chans
        0).messages.length =
      ((emptyWorld Nat 1).chans 0).messages.length + sampleReplies.length ∧
    ((sampleEnvelope Nat).RespondEach (emptyWorld Nat 1) sampleReplies).1.length =
      sampleReplies.length ∧
    (∀ o ∈ ((sampleEnvelope Nat).RespondEach (emptyWorld Nat 1) sampleReplies).1,
      o ≠ Outcome.panicked)) :=
  ⟨rfl, rfl,
    RespondEach_writes_each (sampleEnvelope Nat) (emptyWorld Nat 1) sampleReplies 0 rfl rfl⟩

/-- Counterexample to C9: on a reply channel the caller closed, `Respond` panics; on an
unbuffered reply channel nobody receives from, `Respond` does not return. -/
theorem Respond_abandoned_channel :
    ((sampleEnvelope Nat).Respond (closedWorld Nat) Iface.nil none).outcome =
      Outcome.panicked ∧
    ((sampleEnvelope Nat).Respond (emptyWorld Nat 0) Iface.nil none).outcome =
      Outcome.blocked := by
  constructor <;> rfl

/-- C9 as amended: `Respond` is a plain blocking send and discards nothing.  On a nil
channel it blocks and changes nothing; on a closed channel it panics and changes nothing;
on an open channel it returns when a receiver is waiting (the reply is handed to it) or
when the buffer has room (the reply is buffered, no receiver gets it); on an open channel
without receiver and without room it blocks, holding the reply. -/
theorem Respond_by_channel_state {P : Type} (r : RPC P) (w : World P) (resp : Iface P)
    (err : GoError) :
    (r.RespChan = none →
      (r.Respond w resp err).outcome = Outcome.blocked ∧ (r.Respond w resp err).world = w) ∧
    (∀ c, r.RespChan = some c →
      ((w.chans c).closed = true →
        (r.Respond w resp err).outcome = Outcome.panicked ∧
        (r.Respond w resp err).world.chans c = w.chans c) ∧
      ((w.chans c).closed = false → 0 < (w.chans c).recvq →
        (r.Respond w resp err).outcome = Outcome.returned ∧
        (r.Respond w resp err).world.chans c =
          { w.chans c with
            recvq := (w.chans c).recvq - 1,
            received := (w.chans c).received ++ [{ Response := resp, Error := err }] }) ∧
      ((w.chans c).closed = false → (w.chans c).recvq = 0 →
        (w.chans c).buf.length < (w.chans c).cap →
        (r.Respond w resp err).outcome = Outcome.returned ∧
        (r.Respond w resp err).world.chans c =
          { w.chans c with
            buf := (w.chans c).buf ++ [{ Response := resp, Error := err }] }) ∧
      ((w.chans c).closed = false → (w.chans c).recvq = 0 →
        (w.chans c).cap ≤ (w.chans c).buf.length →
        (r.Respond w resp err).outcome = Outcome.blocked ∧
        (r.Respond w resp err).world.chans c =
          { w.chans c with
            sendq := (w.chans c).sendq ++ [{ Response := resp, Error := err }] })) := by
  refine ⟨?_, ?_⟩
  · intro hn
    rw [Respond_outcome, Respond_world, hn]
    exact ⟨rfl, rfl⟩
  · intro c hc
    rw [Respond_outcome_of_some r w resp err c hc, Respond_chan_of_some r w resp err c hc]
    refine ⟨?_, ?_, ?_, ?_⟩
    · intro h
      rw [Chan.send_of_closed _ _ h]
      exact ⟨rfl, rfl⟩
    · intro h hr
      rw [Chan.send_of_receiver _ _ h hr]
      exact ⟨rfl, rfl⟩
    · intro h hr hb
      rw [Chan.send_of_room _ _ h hr hb]
      exact ⟨rfl, rfl⟩
    · intro h hr hb
      rw [Chan.send_of_full _ _ h hr hb]
      exact ⟨rfl, rfl⟩

/-- Witness of C9 as amended: the five channel states at concrete worlds. -/
theorem Respond_by_channel_state_witness :
    (({ Command := Iface.nil, Reader := none, RespChan := none } : RPC Nat).Respond
        (emptyWorld Nat 1) Iface.nil none).outcome = Outcome.blocked ∧
    ((sampleEnvelope Nat).Respond (closedWorld Nat) Iface.nil none).outcome =
      Outcome.panicked ∧
    (((sampleEnvelope Nat).Respond (emptyWorld Nat 1) Iface.nil (some "late")).outcome =
        Outcome.returned ∧
      (((sampleEnvelope Nat).Respond (emptyWorld Nat 1) Iface.nil (some "late")).world.chans
        0) =
        { emptyChan Nat 1 with buf := [{ Response := Iface.nil, Error := some "late" }] }) ∧
    (((sampleEnvelope Nat).Respond (emptyWorld Nat 0) Iface.nil (some "late")).outcome =
        Outcome.blocked ∧
      (((sampleEnvelope Nat).Respond (emptyWorld Nat 0) Iface.nil (some "late")).world.chans
        0) =
        { emptyChan Nat 0 with sendq := [{ Response := Iface.nil, Error := some "late" }] }) :=
  ⟨((Respond_by_channel_state
        ({ Command := Iface.nil, Reader := none, RespChan := none } : RPC Nat)
        (emptyWorld Nat 1) Iface.nil none).1 rfl).1,
    (((Respond_by_channel_state (sampleEnvelope Nat) (closedWorld Nat) Iface.nil none).2 0
        rfl).1 rfl).1,
    ((Respond_by_channel_state (sampleEnvelope Nat) (emptyWorld Nat 1) Iface.nil
        (some "late")).2 0 rfl).2.2.1 rfl rfl (by decide),
    ((Respond_by_channel_state (sampleEnvelope Nat) (emptyWorld Nat 0) Iface.nil
        (some "late")).2 0 rfl).2.2.2 rfl rfl (by decide)⟩

/-! ## What `Respond` leaves alone -/

/-- C10: `Respond` leaves the envelope (Command, Reader, RespChan) as it was, reads
nothing from any stream, writes no channel but `RespChan`, and its whole effect is the
send of `RPCResponse{resp, err}` on `RespChan`: outcome and world are the same for any
other command and stream in the envelope, so nothing is checked about the stream. -/
theorem Respond_frame {P : Type} (r : RPC P) (w : World P) (resp : Iface P)
    (err : GoError) :
    (r.Respond w resp err).envelope.Command = r.Command ∧
    (r.Respond w resp err).envelope.Reader = r.Reader ∧
    (r.Respond w resp err).envelope.RespChan = r.RespChan ∧
    (r.Respond w resp err).world.readers = w.readers ∧
    (∀ d, r.RespChan ≠ some d → (r.Respond w resp err).world.chans d = w.chans d) ∧
    (r.Respond w resp err).outcome =
      (w.send r.RespChan { Response := resp, Error := err }).1 ∧
    (r.Respond w resp err).world =
      (w.send r.RespChan { Response := resp, Error := err }).2 ∧
    (∀ (cmd : Iface P) (rd : Option Nat),
      (({ r with Command := cmd, Reader := rd } : RPC P).Respond w resp err).outcome =
        (r.Respond w resp err).outcome ∧
      (({ r with Command := cmd, Reader := rd } : RPC P).Respond w resp err).world =
        (r.Respond w resp err).world) := by
  refine ⟨rfl, rfl, rfl, ?_, ?_, rfl, rfl, ?_⟩
  · rw [Respond_world, World.send_readers]
  · intro d hd
    rw [Respond_world]
    exact World.send_chans_other w r.RespChan _ d hd
  · intro cmd rd
    exact ⟨rfl, rfl⟩

/-! ## Command and stream of an envelope -/

/-- Counterexample to C7: an envelope whose command is a Go string, none of the three
request kinds; `Respond` on it returns and writes the reply as for any other. -/
theorem Command_not_only_requests :
    strayEnvelope.Command.isRequest = false ∧
    strayEnvelope.Command.dynType = some (DynType.other "string") ∧
    (strayEnvelope.Respond (emptyWorld Nat 1) Iface.nil none).outcome = Outcome.returned ∧
    ((strayEnvelope.Respond (emptyWorld Nat 1) Iface.nil none).world.chans 0).buf =
      [{ Response := Iface.nil, Error := none }] := by
  refine ⟨rfl, rfl, rfl, rfl⟩

/-- C7 as amended: the command of an envelope is an unconstrained interface value: each
of the three request kinds can be carried, and so can nil and a value of any other type;
`Respond` keeps the command as it is and replies as it does for any other command. -/
theorem Command_any_value {P : Type} (c : Iface P) (r : RPC P) (w : World P)
    (resp : Iface P) (err : GoError) :
    (({ r with Command := c } : RPC P).Respond w resp err).envelope.Command = c ∧
    (({ r with Command := c } : RPC P).Respond w resp err).outcome =
      (r.Respond w resp err).outcome ∧
    (({ r with Command := c } : RPC P).Respond w resp err).world =
      (r.Respond w resp err).world ∧
    (∀ p : P, (Iface.val DynType.RequestVoteRequest p).isRequest = true ∧
      (Iface.val DynType.AppendEntriesRequest p).isRequest = true ∧
      (Iface.val DynType.InstallSnapshotRequest p).isRequest = true) ∧
    (Iface.nil : Iface P).isRequest = false ∧
    (∀ (name : String) (p : P), (Iface.val (DynType.other name) p).isRequest = false) := by
  refine ⟨rfl, rfl, rfl, ?_, rfl, ?_⟩
  · intro p
    exact ⟨rfl, rfl, rfl⟩
  · intro name p
    rfl

/-- Counterexample to C8: an envelope with a vote request and a stream attached; `Respond`
on it returns and writes the reply, and reads nothing from the stream. -/
theorem Reader_with_vote_request :
    voteEnvelope.Command.dynType = some DynType.RequestVoteRequest ∧
    voteEnvelope.Reader = some 5 ∧
    (voteEnvelope.Respond (emptyWorld Nat 1) Iface.nil none).outcome = Outcome.returned ∧
    ((voteEnvelope.Respond (emptyWorld Nat 1) Iface.nil none).world.chans 0).buf =
      [{ Response := Iface.nil, Error := none }] ∧
    (voteEnvelope.Respond (emptyWorld Nat 1) Iface.nil none).envelope.Reader = some 5 := by
  refine ⟨rfl, rfl, rfl, rfl, rfl⟩

/-- C8 as amended: the `Reader` of an envelope is an optional stream that goes with any
command: for every envelope, whatever its command (vote and append-entries requests
included), and every `Reader` value, nil or a stream, the envelope with that `Reader`
keeps its command and its `Reader` through `Respond`, which replies exactly as it does
without the stream and reads no stream.  Setting it only for InstallSnapshot is left to
whoever builds the envelope. -/
theorem Reader_any_command {P : Type} (r : RPC P) (rd : Option Nat) (w : World P)
    (resp : Iface P) (err : GoError) :
    ({ r with Reader := rd } : RPC P).Command = r.Command ∧
    (({ r with Reader := rd } : RPC P).Respond w resp err).envelope.Reader = rd ∧
    (({ r with Reader := rd } : RPC P).Respond w resp err).envelope.Command = r.Command ∧
    (({ r with Reader := rd } : RPC P).Respond w resp err).outcome =
      (({ r with Reader := none } : RPC P).Respond w resp err).outcome ∧
    (({ r with Reader := rd } : RPC P).Respond w resp err).world =
      (({ r with Reader := none } : RPC P).Respond w resp err).world ∧
    (({ r with Reader := rd } : RPC P).Respond w resp err).world.readers = w.readers := by
  refine ⟨rfl, rfl, rfl, rfl, rfl, ?_⟩
  rw [Respond_world, World.send_readers]

/-! ## Futures -/

section PipelineProofs

variable {Req Resp : Type}

theorem AppendFuture.resolve_unresolved (f : AppendFuture Req Resp) (r : Reply Resp) :
    (f.resolve r).unresolved = f.unresolved := by
  unfold AppendFuture.resolve
  cases h : f.result <;> simp [AppendFuture.unresolved]

theorem AppendFuture.resolve_resolved (f : AppendFuture Req Resp) (r : Reply Resp) :
    (f.resolve r).resolved = true := by
  unfold AppendFuture.resolve
  cases h : f.result <;> simp [AppendFuture.resolved, h]

theorem AppendFuture.resolve_of_none (f : AppendFuture Req Resp) (r : Reply Resp)
    (h : f.result = none) : f.resolve r = { f with result := some r } := by
  unfold AppendFuture.resolve
  rw [h]

theorem AppendFuture.resolve_of_resolved (f : AppendFuture Req Resp) (r : Reply Resp)
    (h : f.resolved = true) : f.resolve r = f := by
  unfold AppendFuture.resolve
  cases hr : f.result with
  | none => simp [AppendFuture.resolved, hr] at h
  | some _ => rfl

theorem AppendFuture.unresolved_seq (f : AppendFuture Req Resp) :
    f.unresolved.seq = f.seq := rfl

theorem map_seq_unresolved (l : List (AppendFuture Req Resp)) :
    (l.map AppendFuture.unresolved).map AppendFuture.seq = l.map AppendFuture.seq := by
  simp [List.map_map, Function.comp_def, AppendFuture.unresolved]

theorem map_unresolved_map (g : AppendFuture Req Resp → AppendFuture Req Resp)
    (hg : ∀ f, (g f).unresolved = f.unresolved) (l : List (AppendFuture Req Resp)) :
    (l.map g).map AppendFuture.unresolved = l.map AppendFuture.unresolved := by
  simp [List.map_map, Function.comp_def, hg]

theorem complete_map_unresolved (seq : Nat) (r : Reply Resp)
    (l : List (AppendFuture Req Resp)) :
    (l.map (fun (f : AppendFuture Req Resp) =>
        if f.seq = seq then f.resolve r else f)).map AppendFuture.unresolved =
      l.map AppendFuture.unresolved := by
  apply map_unresolved_map
  intro f
  split_ifs
  · exact AppendFuture.resolve_unresolved f r
  · rfl

/-! ## Steps of the pipeline -/

theorem AppendPipeline.drain_all (p : AppendPipeline Req Resp) : p.drain.all = p.all := by
  simp [AppendPipeline.drain, AppendPipeline.all, List.append_assoc]

theorem AppendPipeline.drain_state (p : AppendPipeline Req Resp) : p.drain.state = p.state := rfl

theorem AppendPipeline.drain_nextSeq (p : AppendPipeline Req Resp) : p.drain.nextSeq = p.nextSeq := rfl

theorem AppendPipeline.settle_all (p : AppendPipeline Req Resp) : p.settle.all = p.all := by
  unfold AppendPipeline.settle
  split_ifs <;> rfl

theorem AppendPipeline.settle_pending (p : AppendPipeline Req Resp) : p.settle.pending = p.pending := by
  unfold AppendPipeline.settle
  split_ifs <;> rfl

theorem AppendPipeline.settle_Consumer (p : AppendPipeline Req Resp) :
    p.settle.Consumer = p.Consumer := by
  unfold AppendPipeline.settle
  split_ifs <;> rfl

theorem AppendPipeline.settle_nextSeq (p : AppendPipeline Req Resp) : p.settle.nextSeq = p.nextSeq := by
  unfold AppendPipeline.settle
  split_ifs <;> rfl

theorem AppendPipeline.drain_of_all_resolved (p : AppendPipeline Req Resp)
    (h : ∀ f ∈ p.pending, f.resolved = true) :
    p.drain.pending = [] ∧ p.drain.Consumer = p.Consumer ++ p.pending := by
  unfold AppendPipeline.drain
  simp only
  rw [List.dropWhile_eq_nil_iff.mpr h, List.takeWhile_eq_self_iff.mpr h]
  exact ⟨rfl, rfl⟩

theorem AppendPipeline.drain_Consumer_resolved (p : AppendPipeline Req Resp)
    (h : ∀ f ∈ p.Consumer, f.resolved = true) : ∀ f ∈ p.drain.Consumer, f.resolved = true := by
  intro f hf
  unfold AppendPipeline.drain at hf
  rcases List.mem_append.mp hf with hf | hf
  · exact h f hf
  · exact List.mem_takeWhile_imp hf

theorem AppendPipeline.drain_head (p : AppendPipeline Req Resp) :
    ∀ f, p.drain.pending.head? = some f → f.resolved = false := by
  intro f hf
  have h := List.head?_dropWhile_not AppendFuture.resolved p.pending
  unfold AppendPipeline.drain at hf
  simp only at hf
  rw [hf] at h
  simpa using h

theorem AppendPipeline.AppendEntries_of_not_open (p : AppendPipeline Req Resp) (now : Nat) (req : Req)
    (h : p.state ≠ Lifecycle.Open) :
    p.AppendEntries now req = (SubmitResult.failed TransportError.PipelineClosed, p) := by
  unfold AppendPipeline.AppendEntries
  rw [if_pos h]

theorem AppendPipeline.AppendEntries_cases (p : AppendPipeline Req Resp) (now : Nat) (req : Req) :
    p.AppendEntries now req = (SubmitResult.failed TransportError.PipelineClosed, p) ∨
    p.AppendEntries now req = (SubmitResult.blocked, p) ∨
    (p.state = Lifecycle.Open ∧
      p.AppendEntries now req =
        (SubmitResult.ok { seq := p.nextSeq, Start := now, Request := req, result := none },
          { p with
            nextSeq := p.nextSeq + 1,
            pending := p.pending ++
              [{ seq := p.nextSeq, Start := now, Request := req, result := none }] })) := by
  unfold AppendPipeline.AppendEntries
  by_cases h : p.state ≠ Lifecycle.Open
  · left
    rw [if_pos h]
  · right
    rw [if_neg h]
    by_cases hw : p.window ≤ p.inflight
    · left
      rw [if_pos hw]
    · right
      rw [if_neg hw]
      exact ⟨not_not.mp h, rfl⟩

theorem AppendPipeline.Close_of_closed (p : AppendPipeline Req Resp) (h : p.state = Lifecycle.Closed) :
    p.Close = (none, p) := by
  unfold AppendPipeline.Close
  rw [h]

theorem AppendPipeline.Close_of_not_closed (p : AppendPipeline Req Resp)
    (h : p.state ≠ Lifecycle.Closed) :
    p.Close =
      (none,
        { p with
          state := Lifecycle.Closed,
          pending := [],
          Consumer := p.Consumer ++ p.pending.map AppendFuture.cancel }) := by
  have hd := AppendPipeline.drain_of_all_resolved
    ({ p with
        state := Lifecycle.Closing,
        pending := p.pending.map AppendFuture.cancel } : AppendPipeline Req Resp)
    (by
      intro f hf
      obtain ⟨g, _, rfl⟩ := List.mem_map.mp hf
      exact AppendFuture.resolve_resolved g _)
  have hs : p.Close =
      (none,
        ({ p with
            state := Lifecycle.Closing,
            pending := p.pending.map AppendFuture.cancel } : AppendPipeline Req Resp).drain.settle) := by
    unfold AppendPipeline.Close
    cases hst : p.state with
    | Closed => exact absurd hst h
    | Open => rfl
    | Closing => rfl
  rw [hs]
  obtain ⟨hp, hc⟩ := hd
  unfold AppendPipeline.settle
  rw [if_pos ⟨AppendPipeline.drain_state _, by rw [hp]; rfl⟩]
  unfold AppendPipeline.drain at hp hc ⊢
  simp only at hp hc ⊢
  rw [hp, hc]

theorem AppendPipeline.Close_error (p : AppendPipeline Req Resp) : p.Close.1 = none := by
  unfold AppendPipeline.Close
  split <;> rfl

theorem AppendPipeline.Close_state (p : AppendPipeline Req Resp) : p.Close.2.state = Lifecycle.Closed := by
  by_cases h : p.state = Lifecycle.Closed
  · rw [AppendPipeline.Close_of_closed p h]
    exact h
  · rw [AppendPipeline.Close_of_not_closed p h]

theorem AppendPipeline.complete_all (p : AppendPipeline Req Resp) (seq : Nat) (r : Reply Resp) :
    (p.complete seq r).all.map AppendFuture.unresolved = p.all.map AppendFuture.unresolved := by
  unfold AppendPipeline.complete
  rw [AppendPipeline.drain_all]
  simp only [AppendPipeline.all, List.map_append]
  rw [complete_map_unresolved]

theorem AppendPipeline.Close_all (p : AppendPipeline Req Resp) :
    p.Close.2.all.map AppendFuture.unresolved = p.all.map AppendFuture.unresolved := by
  by_cases h : p.state = Lifecycle.Closed
  · rw [AppendPipeline.Close_of_closed p h]
  · rw [AppendPipeline.Close_of_not_closed p h]
    simp only [AppendPipeline.all, List.map_append, List.append_nil, List.map_nil]
    rw [map_unresolved_map AppendFuture.cancel
      (fun f => AppendFuture.resolve_unresolved f _)]

theorem AppendPipeline.run_cons (p : AppendPipeline Req Resp) (e : Event Req Resp)
    (es : List (Event Req Resp)) : p.run (e :: es) = (p.step e).run es := rfl

theorem AppendPipeline.issued_cons (p : AppendPipeline Req Resp) (e : Event Req Resp)
    (es : List (Event Req Resp)) : p.issued (e :: es) = p.issued [e] ++ (p.step e).issued es := by
  cases e with
  | submit now req =>
    simp only [AppendPipeline.issued, AppendPipeline.step]
    cases (p.AppendEntries now req).1 <;> simp
  | complete seq r => simp [AppendPipeline.issued, AppendPipeline.step]
  | close => simp [AppendPipeline.issued, AppendPipeline.step]

theorem AppendPipeline.step_all (p : AppendPipeline Req Resp) (e : Event Req Resp) :
    (p.step e).all.map AppendFuture.unresolved =
      p.all.map AppendFuture.unresolved ++ p.issued [e] := by
  cases e with
  | submit now req =>
    simp only [AppendPipeline.issued, AppendPipeline.step]
    rcases AppendPipeline.AppendEntries_cases p now req with h | h | ⟨_, h⟩
    · simp [h]
    · simp [h]
    · simp [h, AppendPipeline.all, AppendFuture.unresolved]
  | complete seq r =>
    simp only [AppendPipeline.issued, AppendPipeline.step, List.append_nil]
    exact AppendPipeline.complete_all p seq r
  | close =>
    simp only [AppendPipeline.issued, AppendPipeline.step, List.append_nil]
    exact AppendPipeline.Close_all p

theorem AppendPipeline.run_all (p : AppendPipeline Req Resp) (es : List (Event Req Resp)) :
    (p.run es).all.map AppendFuture.unresolved =
      p.all.map AppendFuture.unresolved ++ p.issued es := by
  induction es generalizing p with
  | nil => simp [AppendPipeline.run, AppendPipeline.issued]
  | cons e es ih =>
    rw [AppendPipeline.run_cons, ih, AppendPipeline.step_all, AppendPipeline.issued_cons p e es, List.append_assoc]

theorem AppendPipeline.step_nextSeq (p : AppendPipeline Req Resp) (e : Event Req Resp) :
    (p.step e).nextSeq = p.nextSeq + (p.issued [e]).length := by
  cases e with
  | submit now req =>
    simp only [AppendPipeline.issued, AppendPipeline.step]
    rcases AppendPipeline.AppendEntries_cases p now req with h | h | ⟨_, h⟩
    · simp [h]
    · simp [h]
    · simp [h]
  | complete seq r => rfl
  | close =>
    simp only [AppendPipeline.issued, AppendPipeline.step, List.length_nil, Nat.add_zero]
    by_cases h : p.state = Lifecycle.Closed
    · rw [AppendPipeline.Close_of_closed p h]
    · rw [AppendPipeline.Close_of_not_closed p h]

theorem AppendPipeline.run_nextSeq (p : AppendPipeline Req Resp) (es : List (Event Req Resp)) :
    (p.run es).nextSeq = p.nextSeq + (p.issued es).length := by
  induction es generalizing p with
  | nil => simp [AppendPipeline.run, AppendPipeline.issued]
  | cons e es ih =>
    rw [AppendPipeline.run_cons, ih, AppendPipeline.step_nextSeq, AppendPipeline.issued_cons p e es,
      List.length_append]
    omega

/-! ## What holds after every run -/

theorem AppendPipeline.new_Inv (window : Nat) : (AppendPipeline.new Req Resp window).Inv :=
  { seqs := rfl
    delivered := fun _ hf => absurd hf (List.not_mem_nil _)
    closed := fun _ => rfl
    head := fun _ hf => by simp [AppendPipeline.new] at hf }

theorem AppendPipeline.step_Inv (p : AppendPipeline Req Resp) (e : Event Req Resp) (h : p.Inv) :
    (p.step e).Inv := by
  have hseq : (p.step e).all.map AppendFuture.seq = List.range (p.step e).nextSeq := by
    rw [← map_seq_unresolved, AppendPipeline.step_all, AppendPipeline.step_nextSeq, List.map_append,
      map_seq_unresolved, h.seqs]
    cases e with
    | submit now req =>
      simp only [AppendPipeline.issued]
      rcases AppendPipeline.AppendEntries_cases p now req with h1 | h1 | ⟨_, h1⟩
      · simp [h1]
      · simp [h1]
      · simp [h1, List.range_succ]
    | complete seq r => simp [AppendPipeline.issued]
    | close => simp [AppendPipeline.issued]
  refine { seqs := hseq, delivered := ?_, closed := ?_, head := ?_ }
  · cases e with
    | submit now req =>
      simp only [AppendPipeline.step]
      rcases AppendPipeline.AppendEntries_cases p now req with h1 | h1 | ⟨_, h1⟩
      · rw [h1]
        exact h.delivered
      · rw [h1]
        exact h.delivered
      · rw [h1]
        exact h.delivered
    | complete seq r =>
      exact AppendPipeline.drain_Consumer_resolved _ h.delivered
    | close =>
      simp only [AppendPipeline.step]
      by_cases hc : p.state = Lifecycle.Closed
      · rw [AppendPipeline.Close_of_closed p hc]
        exact h.delivered
      · rw [AppendPipeline.Close_of_not_closed p hc]
        intro f hf
        rcases List.mem_append.mp hf with hf | hf
        · exact h.delivered f hf
        · obtain ⟨g, _, rfl⟩ := List.mem_map.mp hf
          exact AppendFuture.resolve_resolved g _
  · cases e with
    | submit now req =>
      simp only [AppendPipeline.step]
      rcases AppendPipeline.AppendEntries_cases p now req with h1 | h1 | ⟨ho, h1⟩
      · rw [h1]
        exact h.closed
      · rw [h1]
        exact h.closed
      · rw [h1]
        intro hc
        simp only at hc
        rw [ho] at hc
        exact absurd hc (by decide)
    | complete seq r =>
      intro hc
      have hp := h.closed hc
      simp [AppendPipeline.step, AppendPipeline.complete, AppendPipeline.drain, hp]
    | close =>
      intro _
      simp only [AppendPipeline.step]
      by_cases hc : p.state = Lifecycle.Closed
      · rw [AppendPipeline.Close_of_closed p hc]
        exact h.closed hc
      · rw [AppendPipeline.Close_of_not_closed p hc]
  · cases e with
    | submit now req =>
      simp only [AppendPipeline.step]
      rcases AppendPipeline.AppendEntries_cases p now req with h1 | h1 | ⟨_, h1⟩
      · rw [h1]
        exact h.head
      · rw [h1]
        exact h.head
      · rw [h1]
        intro f hf
        simp only at hf
        cases hp : p.pending with
        | nil =>
          rw [hp] at hf
          simp at hf
          rw [← hf]
          rfl
        | cons g gs =>
          rw [hp] at hf
          simp at hf
          apply h.head
          rw [hp, ← hf]
          rfl
    | complete seq r =>
      exact AppendPipeline.drain_head _
    | close =>
      simp only [AppendPipeline.step]
      by_cases hc : p.state = Lifecycle.Closed
      · rw [AppendPipeline.Close_of_closed p hc]
        exact h.head
      · rw [AppendPipeline.Close_of_not_closed p hc]
        intro f hf
        simp at hf

theorem AppendPipeline.run_Inv (p : AppendPipeline Req Resp) (es : List (Event Req Resp)) (h : p.Inv) :
    (p.run es).Inv := by
  induction es generalizing p with
  | nil => exact h
  | cons e es ih => exact ih (p.step e) (AppendPipeline.step_Inv p e h)

theorem AppendPipeline.step_closed (p : AppendPipeline Req Resp) (e : Event Req Resp)
    (h : p.state = Lifecycle.Closed) :
    (p.step e).state = Lifecycle.Closed ∧ p.issued [e] = [] := by
  have hno : p.state ≠ Lifecycle.Open := by
    rw [h]
    decide
  cases e with
  | submit now req =>
    simp only [AppendPipeline.step, AppendPipeline.issued]
    rw [AppendPipeline.AppendEntries_of_not_open p now req hno]
    exact ⟨h, rfl⟩
  | complete seq r => exact ⟨h, rfl⟩
  | close =>
    simp only [AppendPipeline.step, AppendPipeline.issued]
    rw [AppendPipeline.Close_of_closed p h]
    exact ⟨h, trivial⟩

theorem AppendPipeline.run_closed (p : AppendPipeline Req Resp) (es : List (Event Req Resp))
    (h : p.state = Lifecycle.Closed) :
    (p.run es).state = Lifecycle.Closed ∧ p.issued es = [] := by
  induction es generalizing p with
  | nil => exact ⟨h, rfl⟩
  | cons e es ih =>
    obtain ⟨h1, h2⟩ := AppendPipeline.step_closed p e h
    obtain ⟨h3, h4⟩ := ih (p.step e) h1
    rw [AppendPipeline.run_cons, AppendPipeline.issued_cons p e es, h2, h4]
    exact ⟨h3, rfl⟩

/-! ## The pipeline claims -/

/-- C4: whatever the submissions, the order of the network completions and the closes,
the futures delivered on the `Consumer` channel are the first futures handed out by
`AppendEntries`, in submission order, each once (their sequence numbers count up from 0
without gap or repeat) and each resolved; and the oldest future still held back is
unresolved, so a resolved future waits only for an earlier unresolved one. -/
theorem Consumer_in_submission_order (window : Nat) (es : List (Event Req Resp)) :
    ((AppendPipeline.new Req Resp window).run es).Consumer.map AppendFuture.unresolved =
      ((AppendPipeline.new Req Resp window).issued es).take
        ((AppendPipeline.new Req Resp window).run es).Consumer.length ∧
    ((AppendPipeline.new Req Resp window).run es).Consumer.length ≤
      ((AppendPipeline.new Req Resp window).issued es).length ∧
    (∀ f ∈ ((AppendPipeline.new Req Resp window).run es).Consumer, f.resolved = true) ∧
    ((AppendPipeline.new Req Resp window).run es).Consumer.map AppendFuture.seq =
      List.range ((AppendPipeline.new Req Resp window).run es).Consumer.length ∧
    ((AppendPipeline.new Req Resp window).issued es).map AppendFuture.seq =
      List.range ((AppendPipeline.new Req Resp window).issued es).length ∧
    (∀ f, ((AppendPipeline.new Req Resp window).run es).pending.head? = some f →
      f.resolved = false) := by
  have hinv := AppendPipeline.run_Inv _ es (@AppendPipeline.new_Inv Req Resp window)
  have hall := AppendPipeline.run_all (AppendPipeline.new Req Resp window) es
  have hnext := AppendPipeline.run_nextSeq (AppendPipeline.new Req Resp window) es
  have hzero : (AppendPipeline.new Req Resp window).nextSeq = 0 := rfl
  have hnil : (AppendPipeline.new Req Resp window).all = [] := rfl
  rw [hnil, List.map_nil, List.nil_append] at hall
  rw [hzero, Nat.zero_add] at hnext
  generalize (AppendPipeline.new Req Resp window).run es = q at hinv hall hnext
  generalize (AppendPipeline.new Req Resp window).issued es = iss at hall hnext
  have hsplit : q.Consumer.map AppendFuture.unresolved ++
      q.pending.map AppendFuture.unresolved = iss := by
    rw [← hall, AppendPipeline.all, List.map_append]
  have hlen : q.Consumer.length ≤ iss.length := by
    rw [← hsplit]
    simp
  have hseqs := hinv.seqs
  rw [AppendPipeline.all, List.map_append] at hseqs
  refine ⟨?_, hlen, hinv.delivered, ?_, ?_, hinv.head⟩
  · rw [← hsplit]
    exact (List.take_left' (by simp)).symm
  · have h1 : (q.Consumer.map AppendFuture.seq) =
        (List.range q.nextSeq).take q.Consumer.length := by
      rw [← hseqs]
      exact (List.take_left' (by simp)).symm
    rw [h1, List.take_range, hnext, Nat.min_eq_left hlen]
  · rw [← hall, map_seq_unresolved, hinv.seqs, List.length_map, hnext, ← hall,
      List.length_map]

/-- The sample run: the completion of the third request alone delivers nothing; once
the first and second are completed the three futures are on `Consumer` in submission
order with the results the network gave them. -/
theorem Consumer_sample_run :
    (((AppendPipeline.new Nat Nat 3).run (sampleEvents.take 4)).Consumer = []) ∧
    (((AppendPipeline.new Nat Nat 3).run sampleEvents).Consumer =
      [{ seq := 0, Start := 10, Request := 100, result := some (Reply.response 200) },
       { seq := 1, Start := 11, Request := 101,
         result := some (Reply.error TransportError.Timeout) },
       { seq := 2, Start := 12, Request := 102, result := some (Reply.response 202) }]) := by
  constructor <;> decide

/-- C5: `Close` on a pipeline, after any run, returns no error and leaves the pipeline
Closed with no pending future; every future on `Consumer` is resolved; every future that
was outstanding (pending and unresolved) is on `Consumer` resolved with `Cancelled`, and no
future with its sequence number carries anything else. -/
theorem Close_cancels_outstanding (window : Nat) (es : List (Event Req Resp)) :
    ((AppendPipeline.new Req Resp window).run es).Close.1 = none ∧
    ((AppendPipeline.new Req Resp window).run es).Close.2.state = Lifecycle.Closed ∧
    ((AppendPipeline.new Req Resp window).run es).Close.2.pending = [] ∧
    (∀ g ∈ ((AppendPipeline.new Req Resp window).run es).Close.2.Consumer, g.resolved = true) ∧
    (∀ f ∈ ((AppendPipeline.new Req Resp window).run es).pending, f.result = none →
      ({ f with result := some (Reply.error TransportError.Cancelled) } :
          AppendFuture Req Resp) ∈
        ((AppendPipeline.new Req Resp window).run es).Close.2.Consumer ∧
      ∀ g ∈ ((AppendPipeline.new Req Resp window).run es).Close.2.Consumer,
        g.seq = f.seq → g.result = some (Reply.error TransportError.Cancelled)) := by
  have hinv := AppendPipeline.run_Inv _ es (@AppendPipeline.new_Inv Req Resp window)
  generalize (AppendPipeline.new Req Resp window).run es = p at hinv
  have hinv2 : p.Close.2.Inv := AppendPipeline.step_Inv p Event.close hinv
  have hstate := AppendPipeline.Close_state p
  have hpend : p.Close.2.pending = [] := hinv2.closed hstate
  refine ⟨AppendPipeline.Close_error p, hstate, hpend, hinv2.delivered, ?_⟩
  intro f hf hnone
  have hopen : p.state ≠ Lifecycle.Closed := by
    intro hc
    rw [hinv.closed hc] at hf
    exact absurd hf (List.not_mem_nil _)
  have hmem : ({ f with result := some (Reply.error TransportError.Cancelled) } :
      AppendFuture Req Resp) ∈ p.Close.2.Consumer := by
    rw [AppendPipeline.Close_of_not_closed p hopen]
    apply List.mem_append_right
    refine List.mem_map.mpr ⟨f, hf, ?_⟩
    exact AppendFuture.resolve_of_none f _ hnone
  refine ⟨hmem, ?_⟩
  intro g hg hseq
  have hnodup : (p.Close.2.Consumer.map AppendFuture.seq).Nodup := by
    have h := hinv2.seqs
    rw [AppendPipeline.all, hpend, List.append_nil] at h
    rw [h]
    exact List.nodup_range _
  have heq := List.inj_on_of_nodup_map hnodup hg hmem hseq
  rw [heq]

/-- C6: after `Close`, on any pipeline and whatever happens next, `AppendEntries` fails
with `PipelineClosed`, returns no future and changes nothing: no submission succeeds
after `Close`. -/
theorem AppendEntries_after_Close (p : AppendPipeline Req Resp) (es : List (Event Req Resp))
    (now : Nat) (req : Req) :
    (p.Close.2.run es).AppendEntries now req =
      (SubmitResult.failed TransportError.PipelineClosed, p.Close.2.run es) ∧
    p.Close.2.issued (es ++ [Event.submit now req]) = [] := by
  have hc := AppendPipeline.Close_state p
  refine ⟨?_, (AppendPipeline.run_closed _ _ hc).2⟩
  apply AppendPipeline.AppendEntries_of_not_open
  rw [(AppendPipeline.run_closed _ es hc).1]
  decide

end PipelineProofs

end Raft
